import Mathlib

/-!
Verification development for the finagent repository.

Shallow embedding of the spending-comparison and bill-split core:
  - src/src/core/spending_analytics.py
      remove_outliers, calculate_population_averages,
      compare_user_to_population, get_top_overspending_categories
  - src/src/core/currency_converter.py
      get_exchange_rates, convert_currency
  - src/main.py (display_transaction_card)
      split resolution, GST apportionment, reconciliation fallback,
      split validation gate before persistence

Python floats are modelled as exact rationals (ℚ); Python dicts as
association lists; the external exchange-rate fetch and the on-disk rate
cache are passed as explicit inputs.
-/

/-- Python's round(x) on an exact value: round half to even (banker's
rounding), as used by round(value, ndigits) in the source. -/
def pyRoundInt (q : ℚ) : ℤ :=
  let f := ⌊q⌋
  let r := q - f
  if r < 1/2 then f
  else if 1/2 < r then f + 1
  else if f % 2 = 0 then f else f + 1

/-- Python's round(value, ndigits) for ndigits decimal digits. -/
def pyRound (q : ℚ) (ndigits : ℕ) : ℚ :=
  (pyRoundInt (q * (10 : ℚ) ^ ndigits) : ℚ) / (10 : ℚ) ^ ndigits

/-- statistics.mean: sum divided by length. -/
def mean (l : List ℚ) : ℚ := l.sum / l.length

/-- Python's sorted(data) for numbers: the ascending stable sort. On a
linear order any sorted permutation is unique, so insertion sort agrees
with it elementwise. -/
def sortedData (data : List ℚ) : List ℚ := data.insertionSort (· ≤ ·)

/-- Q1 of remove_outliers (src/src/core/spending_analytics.py:176-178):
sorted_data[n // 4] where n = len(sorted_data). -/
def q1 (data : List ℚ) : ℚ :=
  (sortedData data).getD ((sortedData data).length / 4) 0

/-- Q3 of remove_outliers (src/src/core/spending_analytics.py:177-180):
sorted_data[3 * n // 4]. -/
def q3 (data : List ℚ) : ℚ :=
  (sortedData data).getD (3 * (sortedData data).length / 4) 0

/-- IQR of remove_outliers: q3 - q1. -/
def iqr (data : List ℚ) : ℚ := q3 data - q1 data

/-- Lower outlier bound: q1 - 1.5 * iqr. -/
def lowerBound (data : List ℚ) : ℚ := q1 data - 3/2 * iqr data

/-- Upper outlier bound: q3 + 1.5 * iqr. -/
def upperBound (data : List ℚ) : ℚ := q3 data + 3/2 * iqr data

/-- Embeds remove_outliers (src/src/core/spending_analytics.py:157-189):
fewer than 4 values are returned unchanged; otherwise the values x of the
original list with lower_bound <= x <= upper_bound are kept, in order. -/
def remove_outliers (data : List ℚ) : List ℚ :=
  if data.length < 4 then data
  else data.filter (fun x => decide (lowerBound data ≤ x ∧ x ≤ upperBound data))

/-- Embeds the per-category aggregation step of calculate_population_averages
(src/src/core/spending_analytics.py:135-154). The grouping of stored
transactions into per-user totals per category (database fetch and currency
conversion, lines 86-126) is taken as the input: an association list from
category to the list of per-user totals. Categories with fewer than 5
contributing users are skipped; otherwise outliers are removed and, when the
cleaned list is non-empty, the category maps to the mean rounded to 2
decimal places. -/
def calculate_population_averages (spending : List (String × List ℚ)) :
    List (String × ℚ) :=
  spending.filterMap (fun p =>
    if p.2.length < 5 then none
    else
      let cleaned := remove_outliers p.2
      if cleaned.isEmpty then none
      else some (p.1, pyRound (mean cleaned) 2))

/-- dict.get(key, default) on an association list. -/
def lookupD (m : List (String × ℚ)) (key : String) (default : ℚ) : ℚ :=
  (m.lookup key).getD default

/-- Embeds compare_user_to_population
(src/src/core/spending_analytics.py:192-232): iterate the union of
categories of both inputs (each category once), read each side with
default 0, skip the category when the population amount is 0, otherwise
record (percentage_diff, dollar_diff) with the source's roundings. -/
def compare_user_to_population (user_spending population_avg : List (String × ℚ)) :
    List (String × ℚ × ℚ) :=
  let all_categories :=
    (user_spending.map Prod.fst ++ population_avg.map Prod.fst).dedup
  all_categories.filterMap (fun category =>
    let user_amt := lookupD user_spending category 0
    let pop_amt := lookupD population_avg category 0
    if pop_amt = 0 then none
    else
      let dollar_diff := pyRound (user_amt - pop_amt) 2
      let percentage_diff := pyRound (dollar_diff / pop_amt * 100) 1
      some (category, percentage_diff, dollar_diff))

/-- Descending order on the percentage component, used by the stable sort in
get_top_overspending_categories (sort by pct, reverse=True). -/
def pctDesc (a b : String × ℚ × ℚ) : Prop := b.2.1 ≤ a.2.1

instance : DecidableRel pctDesc := fun a b => inferInstanceAs (Decidable (b.2.1 ≤ a.2.1))

/-- Embeds get_top_overspending_categories
(src/src/core/spending_analytics.py:235-260): keep the entries with
positive percentage difference, sort them by percentage difference in
descending order, and take the first `limit`. -/
def get_top_overspending_categories (comparison : List (String × ℚ × ℚ))
    (limit : ℕ) : List (String × ℚ × ℚ) :=
  let overspending := comparison.filter (fun x => decide (0 < x.2.1))
  (overspending.insertionSort pctDesc).take limit

/-- A split transaction as display_transaction_card sees it (src/main.py):
amount is the total bill, gst is 0 when absent (Python falsiness), split_with
the named participants other than the owner, split_amounts the explicit
per-person allocations ([] when absent or empty). -/
structure SplitTransaction where
  amount : ℚ
  gst : ℚ
  split_with : List String
  split_amounts : List (String × ℚ)

/-- num_people = len(split_with) + 1 (the named participants plus the
owner), src/main.py:763 and 772. -/
def headcount (t : SplitTransaction) : ℕ := t.split_with.length + 1

/-- Equal per-person share amount / num_people, src/main.py:764 and 790. -/
def equalShare (t : SplitTransaction) : ℚ := t.amount / (headcount t : ℚ)

/-- split_display after GST apportionment (src/main.py:771-779): when gst is
present and positive, gst / num_people is added to every entry of
split_amounts; otherwise split_amounts is unchanged. -/
def gstAdjusted (t : SplitTransaction) : List (String × ℚ) :=
  if 0 < t.gst then
    t.split_amounts.map (fun p => (p.1, p.2 + t.gst / (headcount t : ℚ)))
  else t.split_amounts

/-- others_total = sum(split_display.values()), src/main.py:782. -/
def othersTotal (t : SplitTransaction) : ℚ :=
  ((gstAdjusted t).map Prod.snd).sum

/-- Embeds the split resolution of display_transaction_card
(src/main.py:759-792). Returns the per-participant allocations and the
owner's share. Empty split_amounts: equal split. Otherwise: GST is
apportioned, the owner's share is max(0.01, amount - others_total), and when
others_total exceeds amount * 1.05 everything falls back to the equal
split. -/
def resolveSplit (t : SplitTransaction) : List (String × ℚ) × ℚ :=
  if t.split_amounts.isEmpty then
    (t.split_with.map (fun name => (name, equalShare t)), equalShare t)
  else
    let split_display := gstAdjusted t
    let my_share := max (1/100) (t.amount - othersTotal t)
    if t.amount * (21/20) < othersTotal t then
      (t.split_with.map (fun name => (name, equalShare t)), equalShare t)
    else
      (split_display, my_share)

/-- split_valid as stored by the card (src/main.py:858-884): the edited
per-person amounts plus the owner's amount must match the bill total to
within 0.01. -/
def split_valid (amount : ℚ) (edited_amounts : List (String × ℚ))
    (user_amount : ℚ) : Bool :=
  let total_split := (edited_amounts.map Prod.snd).sum + user_amount
  decide (|total_split - amount| < 1/100)

/-- The save handler's gate (src/main.py:992-997): a split transaction is
persisted only when split_valid holds; a non-split transaction always
passes. -/
def save_allowed (is_split valid : Bool) : Bool := !is_split || valid

/-- A fetched-or-cached exchange-rate table: the base currency it is keyed
by, and the rate for each target currency
(src/src/core/currency_converter.py). -/
structure RatesTable where
  base : String
  rates : List (String × ℚ)

/-- Outcome of the external rate fetch: a network error (requests raised),
or a parsed response table. -/
inductive FetchOutcome where
  | netError : FetchOutcome
  | ok : RatesTable → FetchOutcome

/-- The try-block of get_exchange_rates
(src/src/core/currency_converter.py:77-108): a successful fetch whose base
matches is returned (and cached, not modelled further); a response missing
the expected fields or with a different base yields None; a network error
falls back to whatever the cache held, regardless of the cache's base. -/
def fetch_result (cache : Option RatesTable) (fetch : FetchOutcome)
    (base_currency : String) : Option RatesTable :=
  match fetch with
  | FetchOutcome.ok data =>
      if data.base = base_currency then some data else none
  | FetchOutcome.netError => cache

/-- Embeds get_exchange_rates (src/src/core/currency_converter.py:64-108).
`cache` is the result of _load_cached_rates: some table only when the cache
file existed and was younger than 24 hours. When the cached table's base
matches the requested base it is returned without fetching; otherwise the
fetch is attempted. -/
def get_exchange_rates (cache : Option RatesTable) (fetch : FetchOutcome)
    (base_currency : String) : Option RatesTable :=
  match cache with
  | some c =>
      if c.base = base_currency then some c
      else fetch_result cache fetch base_currency
  | none => fetch_result cache fetch base_currency

/-- Python str.upper() for the ASCII currency codes the source handles. -/
def upperStr (s : String) : String := String.mk (s.data.map Char.toUpper)

/-- Embeds convert_currency (src/src/core/currency_converter.py:110-133):
identical currencies (case-insensitively) return the amount unchanged; then
the rate table based at from_currency is obtained; a missing table, a
missing rate for to_currency, or a falsy (zero) rate fails with none;
otherwise the converted amount is amount * rate. -/
def convert_currency (cache : Option RatesTable) (fetch : FetchOutcome)
    (amount : ℚ) (from_currency to_currency : String) : Option ℚ :=
  if upperStr from_currency = upperStr to_currency then some amount
  else
    match get_exchange_rates cache fetch (upperStr from_currency) with
    | none => none
    | some rates =>
        match rates.rates.lookup (upperStr to_currency) with
        | none => none
        | some to_rate => if to_rate = 0 then none else some (amount * to_rate)

/-! ## Split resolution (claims C1-C4) -/

lemma split_amounts_isEmpty_false {t : SplitTransaction}
    (hne : t.split_amounts ≠ []) : t.split_amounts.isEmpty = false := by
  simpa [List.isEmpty_iff] using hne

/-- C1 (counterexample): with amount=100, split_with=["Alice"],
split_amounts={"Alice": 200}, gst=10, the code does not give Alice
200 + 10/2 = 205 with owner share max(0.01, 100 - 205) = 0.01: the
reconciliation fallback fires and both Alice and the owner get 50, so the
claimed owner formula does not describe the result. -/
theorem resolveSplit_gst_formula_fails :
    resolveSplit ⟨100, 10, ["Alice"], [("Alice", 200)]⟩ = ([("Alice", 50)], 50)
    ∧ max (1/100 : ℚ) (100 - (200 + 10/2)) ≠ 50 := by
  constructor
  · norm_num [resolveSplit, gstAdjusted, othersTotal, equalShare, headcount]
  · norm_num

/-- C1 (amended): for a split with non-empty split_amounts and gst > 0,
provided the participant allocations after the GST addition do not exceed
amount * 1.05, each listed participant's allocation is increased by
gst / (len(split_with) + 1) and the owner's share is
max(0.01, amount - sum of the participant allocations after the GST
addition). -/
theorem resolveSplit_gst_and_owner (t : SplitTransaction)
    (hne : t.split_amounts ≠ [])
    (hgst : 0 < t.gst)
    (hrec : othersTotal t ≤ t.amount * (21/20)) :
    resolveSplit t =
      (t.split_amounts.map (fun p => (p.1, p.2 + t.gst / (headcount t : ℚ))),
        max (1/100) (t.amount - othersTotal t)) := by
  have hE := split_amounts_isEmpty_false hne
  rw [resolveSplit]
  simp only [hE, Bool.false_eq_true, if_false, if_neg (not_lt.mpr hrec)]
  rw [gstAdjusted, if_pos hgst]

/-- Witness for C1 (amended) at the spec example: amount=100,
split_with=["Alice"], split_amounts={"Alice": 30}, gst=10 gives Alice 35
and the owner 65. -/
theorem resolveSplit_gst_and_owner_witness :
    ([("Alice", (30:ℚ))] ≠ ([] : List (String × ℚ)))
    ∧ (0:ℚ) < 10
    ∧ othersTotal ⟨100, 10, ["Alice"], [("Alice", 30)]⟩ ≤ 100 * (21/20)
    ∧ resolveSplit ⟨100, 10, ["Alice"], [("Alice", 30)]⟩ = ([("Alice", 35)], 65) := by
  refine ⟨by simp, by norm_num, by norm_num [othersTotal, gstAdjusted, headcount], ?_⟩
  have h := resolveSplit_gst_and_owner ⟨100, 10, ["Alice"], [("Alice", 30)]⟩
    (by simp) (by norm_num) (by norm_num [othersTotal, gstAdjusted, headcount])
  rw [h]
  norm_num [othersTotal, gstAdjusted, headcount]

/-- C2: with explicit split_amounts, when the participant allocations after
GST apportionment exceed amount * 1.05, the explicit allocations are
discarded and every participant including the owner gets
amount / (len(split_with) + 1). -/
theorem resolveSplit_reconciliation_fallback (t : SplitTransaction)
    (hne : t.split_amounts ≠ [])
    (hover : t.amount * (21/20) < othersTotal t) :
    resolveSplit t =
      (t.split_with.map (fun name => (name, t.amount / (headcount t : ℚ))),
        t.amount / (headcount t : ℚ)) := by
  have hE := split_amounts_isEmpty_false hne
  rw [resolveSplit]
  simp only [hE, Bool.false_eq_true, if_false, if_pos hover, equalShare]

/-- Witness for C2 at the spec example: amount=50,
split_amounts={"Alice": 48, "Bob": 48} (sum 96 > 52.5) falls back to the
equal split 50/3 for Alice, Bob and the owner. -/
theorem resolveSplit_reconciliation_fallback_witness :
    ([("Alice", (48:ℚ)), ("Bob", 48)] ≠ ([] : List (String × ℚ)))
    ∧ (50:ℚ) * (21/20) < othersTotal ⟨50, 0, ["Alice", "Bob"], [("Alice", 48), ("Bob", 48)]⟩
    ∧ resolveSplit ⟨50, 0, ["Alice", "Bob"], [("Alice", 48), ("Bob", 48)]⟩
        = ([("Alice", 50/3), ("Bob", 50/3)], 50/3) := by
  refine ⟨by simp, by norm_num [othersTotal, gstAdjusted, headcount], ?_⟩
  have h := resolveSplit_reconciliation_fallback
    ⟨50, 0, ["Alice", "Bob"], [("Alice", 48), ("Bob", 48)]⟩
    (by simp) (by norm_num [othersTotal, gstAdjusted, headcount])
  rw [h]
  norm_num [headcount]

/-- C4: with split_amounts absent or empty, every named participant and the
owner is allocated exactly amount / (len(split_with) + 1). -/
theorem resolveSplit_equal_split (t : SplitTransaction)
    (h : t.split_amounts = []) :
    resolveSplit t =
      (t.split_with.map (fun name => (name, t.amount / (headcount t : ℚ))),
        t.amount / (headcount t : ℚ)) := by
  rw [resolveSplit]
  simp [h, equalShare]

/-- Witness for C4 at the spec example: amount=90,
split_with=["Alice","Bob"], no split_amounts: each of Alice, Bob and the
owner gets 30. -/
theorem resolveSplit_equal_split_witness :
    (SplitTransaction.mk 90 0 ["Alice", "Bob"] []).split_amounts = []
    ∧ resolveSplit ⟨90, 0, ["Alice", "Bob"], []⟩
        = ([("Alice", 30), ("Bob", 30)], 30) := by
  refine ⟨rfl, ?_⟩
  have h := resolveSplit_equal_split ⟨90, 0, ["Alice", "Bob"], []⟩ rfl
  rw [h]
  norm_num [headcount]

/-- C3: for a split transaction, the save gate passes exactly when the sum
of the participant allocations plus the owner's share differs from the bill
amount by strictly less than 0.01; otherwise the allocation is invalid and
the save is blocked. -/
theorem split_save_gate (amount : ℚ) (edited_amounts : List (String × ℚ))
    (user_amount : ℚ) :
    save_allowed true (split_valid amount edited_amounts user_amount) = true
      ↔ |(edited_amounts.map Prod.snd).sum + user_amount - amount| < 1/100 := by
  simp [save_allowed, split_valid]

/-- Witness for C3: a matching split (35 + 65 = 100) passes the gate. -/
theorem split_save_gate_witness :
    save_allowed true (split_valid 100 [("Alice", 35)] 65) = true :=
  (split_save_gate 100 [("Alice", 35)] 65).mpr (by norm_num)

/-! ## Currency conversion (claim C5) -/

/-- C5 (code bug evaluation): with a valid cached table whose base is EUR, a
failed fetch, and a request to convert 10 USD to JPY, the code falls back to
the EUR-based cache and returns 10 * 160 = 1600, treating an EUR-based rate
as if it were USD-based, instead of failing; get_exchange_rates hands back
the wrong-base table, contradicting its own contract of returning rates
relative to the requested base currency. -/
theorem convert_currency_wrong_base_cache_bug :
    get_exchange_rates (some ⟨"EUR", [("JPY", 160)]⟩) FetchOutcome.netError "USD"
      = some ⟨"EUR", [("JPY", 160)]⟩
    ∧ convert_currency (some ⟨"EUR", [("JPY", 160)]⟩) FetchOutcome.netError
        10 "USD" "JPY" = some 1600 := by
  constructor
  · rw [get_exchange_rates]
    simp only [fetch_result, if_neg (by decide : ¬ ("EUR" = "USD"))]
  · rw [convert_currency,
      if_neg (by decide : ¬ (upperStr "USD" = upperStr "JPY")),
      (by decide : upperStr "USD" = "USD"),
      (by decide : upperStr "JPY" = "JPY")]
    rw [get_exchange_rates]
    simp only [fetch_result, if_neg (by decide : ¬ ("EUR" = "USD"))]
    simp [List.lookup]
    norm_num

/-! ## Outlier removal (claims C6, C10) -/

lemma length_sortedData (l : List ℚ) : (sortedData l).length = l.length :=
  List.length_insertionSort _ l

lemma sortedData_sorted (l : List ℚ) : (sortedData l).Sorted (· ≤ ·) :=
  List.sorted_insertionSort _ l

lemma sortedData_perm (l : List ℚ) : (sortedData l).Perm l :=
  List.perm_insertionSort _ l

lemma q1_le_q3 (l : List ℚ) (h : 4 ≤ l.length) : q1 l ≤ q3 l := by
  have hlen : (sortedData l).length = l.length := length_sortedData l
  have hq3lt : 3 * (sortedData l).length / 4 < (sortedData l).length := by omega
  have hq1le : (sortedData l).length / 4 ≤ 3 * (sortedData l).length / 4 := by omega
  have hq1lt : (sortedData l).length / 4 < (sortedData l).length :=
    lt_of_le_of_lt hq1le hq3lt
  rw [q1, q3, List.getD_eq_getElem _ 0 hq1lt, List.getD_eq_getElem _ 0 hq3lt]
  have hs := (sortedData_sorted l).rel_get_of_le
    (a := ⟨(sortedData l).length / 4, hq1lt⟩)
    (b := ⟨3 * (sortedData l).length / 4, hq3lt⟩)
    (Fin.mk_le_mk.mpr hq1le)
  simpa using hs

lemma q1_mem (l : List ℚ) (h : 4 ≤ l.length) : q1 l ∈ l := by
  have hlen : (sortedData l).length = l.length := length_sortedData l
  have hq1lt : (sortedData l).length / 4 < (sortedData l).length := by omega
  rw [q1, List.getD_eq_getElem _ 0 hq1lt]
  exact (sortedData_perm l).mem_iff.mp (List.getElem_mem hq1lt)

lemma q1_between_bounds (l : List ℚ) (h : 4 ≤ l.length) :
    lowerBound l ≤ q1 l ∧ q1 l ≤ upperBound l := by
  have h13 := q1_le_q3 l h
  constructor
  · rw [lowerBound, iqr]; linarith
  · rw [upperBound, iqr]; linarith

lemma remove_outliers_sublist (l : List ℚ) : (remove_outliers l).Sublist l := by
  rw [remove_outliers]
  by_cases h : l.length < 4
  · rw [if_pos h]
  · rw [if_neg h]
    exact List.filter_sublist l

lemma remove_outliers_ne_nil (l : List ℚ) (h : l ≠ []) :
    remove_outliers l ≠ [] := by
  rw [remove_outliers]
  by_cases hlen : l.length < 4
  · rw [if_pos hlen]; exact h
  · rw [if_neg hlen]
    have h4 : 4 ≤ l.length := by omega
    have hq1 : q1 l ∈ l.filter
        (fun x => decide (lowerBound l ≤ x ∧ x ≤ upperBound l)) := by
      refine List.mem_filter.mpr ⟨q1_mem l h4, ?_⟩
      simpa using q1_between_bounds l h4
    exact List.ne_nil_of_mem hq1

/-- Shared helper: a category whose per-user totals list has at least 5
entries contributes its rounded trimmed mean to the population aggregate. -/
lemma mem_calculate_population_averages {spending : List (String × List ℚ)}
    {cat : String} {totals : List ℚ} (hmem : (cat, totals) ∈ spending)
    (hlen : 5 ≤ totals.length) :
    (cat, pyRound (mean (remove_outliers totals)) 2)
      ∈ calculate_population_averages spending := by
  have hne : remove_outliers totals ≠ [] := by
    refine remove_outliers_ne_nil totals ?_
    intro hnil
    rw [hnil] at hlen
    simp at hlen
  rw [calculate_population_averages]
  refine List.mem_filterMap.mpr ⟨(cat, totals), hmem, ?_⟩
  rw [if_neg (by omega : ¬ totals.length < 5)]
  simp [List.isEmpty_iff, hne]

/-- C6: remove_outliers returns lists of fewer than 4 elements unchanged;
otherwise, with Q1 and Q3 read off the sorted list at positions n // 4 and
3 * n // 4 (integer division, no interpolation), exactly the elements x with
Q1 - 1.5 * IQR <= x <= Q3 + 1.5 * IQR (bounds inclusive) are retained. -/
theorem remove_outliers_spec (l : List ℚ) :
    q1 l = (l.insertionSort (· ≤ ·)).getD (l.length / 4) 0
    ∧ q3 l = (l.insertionSort (· ≤ ·)).getD (3 * l.length / 4) 0
    ∧ (l.length < 4 → remove_outliers l = l)
    ∧ (4 ≤ l.length →
        remove_outliers l = l.filter (fun x =>
          decide (q1 l - 3/2 * (q3 l - q1 l) ≤ x
            ∧ x ≤ q3 l + 3/2 * (q3 l - q1 l)))) := by
  refine ⟨?_, ?_, ?_, ?_⟩
  · rw [q1, sortedData, List.length_insertionSort]
  · rw [q3, sortedData, List.length_insertionSort]
  · intro h
    rw [remove_outliers, if_pos h]
  · intro h
    rw [remove_outliers, if_neg (by omega)]
    simp only [lowerBound, upperBound, iqr]

/-- Witness for C6: a 3-element list is returned unchanged, and on
[10, 12, 11, 13, 1000] the 1000 is removed. -/
theorem remove_outliers_spec_witness :
    (([3, 1, 2] : List ℚ).length < 4)
    ∧ remove_outliers ([3, 1, 2] : List ℚ) = [3, 1, 2]
    ∧ (4 ≤ ([10, 12, 11, 13, 1000] : List ℚ).length)
    ∧ remove_outliers ([10, 12, 11, 13, 1000] : List ℚ) = [10, 12, 11, 13] := by
  have h1 := (remove_outliers_spec ([3, 1, 2] : List ℚ)).2.2.1 (by norm_num)
  have h2 := (remove_outliers_spec ([10, 12, 11, 13, 1000] : List ℚ)).2.2.2 (by norm_num)
  refine ⟨by norm_num, h1, by norm_num, ?_⟩
  rw [h2]
  norm_num [q1, q3, sortedData, List.insertionSort, List.orderedInsert, List.filter]

/-- C10: remove_outliers returns a subsequence of its input (order and
multiplicity preserved); a non-empty input always yields a non-empty output,
because the value at the Q1 index lies within the inclusive bounds; hence
every category with at least 5 contributing users receives an average in the
population aggregate. -/
theorem remove_outliers_safety :
    (∀ l : List ℚ, (remove_outliers l).Sublist l)
    ∧ (∀ l : List ℚ, l ≠ [] → remove_outliers l ≠ [])
    ∧ (∀ (spending : List (String × List ℚ)) (cat : String) (totals : List ℚ),
        (cat, totals) ∈ spending → 5 ≤ totals.length →
        cat ∈ (calculate_population_averages spending).map Prod.fst) := by
  refine ⟨remove_outliers_sublist, remove_outliers_ne_nil, ?_⟩
  intro spending cat totals hmem hlen
  exact List.mem_map.mpr
    ⟨(cat, pyRound (mean (remove_outliers totals)) 2),
      mem_calculate_population_averages hmem hlen, rfl⟩

/-- Witness for C10: concrete instances of all three parts. -/
theorem remove_outliers_safety_witness :
    (remove_outliers ([10, 12, 11, 13, 1000] : List ℚ)).Sublist
        ([10, 12, 11, 13, 1000] : List ℚ)
    ∧ (([5] : List ℚ) ≠ [])
    ∧ remove_outliers ([5] : List ℚ) ≠ []
    ∧ ("Food", ([10, 20, 30, 40, 50, 60] : List ℚ))
        ∈ [("Travel", ([1, 2, 3, 4] : List ℚ)), ("Food", [10, 20, 30, 40, 50, 60])]
    ∧ 5 ≤ ([10, 20, 30, 40, 50, 60] : List ℚ).length
    ∧ "Food" ∈ (calculate_population_averages
        [("Travel", [1, 2, 3, 4]), ("Food", [10, 20, 30, 40, 50, 60])]).map Prod.fst := by
  refine ⟨remove_outliers_safety.1 _, by simp, remove_outliers_safety.2.1 _ (by simp),
    by simp, by norm_num, ?_⟩
  exact remove_outliers_safety.2.2
    [("Travel", [1, 2, 3, 4]), ("Food", [10, 20, 30, 40, 50, 60])]
    "Food" [10, 20, 30, 40, 50, 60] (by simp) (by norm_num)

/-! ## Population aggregate (claim C7) -/

lemma alist_key_unique {α β : Type} {l : List (α × β)}
    (hnd : (l.map Prod.fst).Nodup) {a : α} {b c : β}
    (hb : (a, b) ∈ l) (hc : (a, c) ∈ l) : b = c := by
  induction l with
  | nil => simp at hb
  | cons hd tl ih =>
    rw [List.map_cons, List.nodup_cons] at hnd
    rcases List.mem_cons.mp hb with hb1 | hb2 <;>
      rcases List.mem_cons.mp hc with hc1 | hc2
    · rw [← hb1] at hc1
      exact (congrArg Prod.snd hc1).symm
    · exfalso
      exact hnd.1 (List.mem_map.mpr ⟨(a, c), hc2, by rw [← hb1]⟩)
    · exfalso
      exact hnd.1 (List.mem_map.mpr ⟨(a, b), hb2, by rw [← hc1]⟩)
    · exact ih hnd.2 hb2 hc2

/-- C7: in the population aggregate, a category whose per-user totals list
has fewer than 5 entries is omitted entirely from the result, and a category
with at least 5 contributing users maps to the mean of the outlier-filtered
per-user totals, rounded to 2 decimal places. -/
theorem calculate_population_averages_spec
    (spending : List (String × List ℚ)) (cat : String) (totals : List ℚ)
    (hmem : (cat, totals) ∈ spending)
    (hnd : (spending.map Prod.fst).Nodup) :
    (totals.length < 5 →
      cat ∉ (calculate_population_averages spending).map Prod.fst)
    ∧ (5 ≤ totals.length →
      (cat, pyRound (mean (remove_outliers totals)) 2)
        ∈ calculate_population_averages spending) := by
  constructor
  · intro hlt hcontra
    rcases List.mem_map.mp hcontra with ⟨⟨c, v⟩, hvmem, hfst⟩
    rw [calculate_population_averages] at hvmem
    rcases List.mem_filterMap.mp hvmem with ⟨⟨c2, ts⟩, hts, hf⟩
    by_cases h5 : ts.length < 5
    · rw [if_pos h5] at hf
      exact absurd hf (by simp)
    · rw [if_neg h5] at hf
      by_cases hie : (remove_outliers ts).isEmpty
      · simp only [hie, if_pos] at hf
        exact absurd hf (by simp)
      · simp only [hie, Bool.false_eq_true, if_false, Option.some.injEq,
          Prod.mk.injEq] at hf
        have hc2 : c2 = cat := by
          rw [hf.1]
          exact hfst
        rw [hc2] at hts
        have hts_eq : totals = ts := alist_key_unique hnd hmem hts
        rw [hts_eq] at hlt
        exact h5 hlt
  · intro hge
    exact mem_calculate_population_averages hmem hge

/-- Witness for C7 at the spec example: with 4 users spending in Travel and
6 users in Food, the aggregate contains Food (with average 35) and not
Travel. -/
theorem calculate_population_averages_spec_witness :
    (("Travel", ([1, 2, 3, 4] : List ℚ))
        ∈ [("Travel", ([1, 2, 3, 4] : List ℚ)), ("Food", [10, 20, 30, 40, 50, 60])])
    ∧ (([("Travel", ([1, 2, 3, 4] : List ℚ)),
        ("Food", ([10, 20, 30, 40, 50, 60] : List ℚ))].map Prod.fst).Nodup)
    ∧ ([1, 2, 3, 4] : List ℚ).length < 5
    ∧ "Travel" ∉ (calculate_population_averages
        [("Travel", [1, 2, 3, 4]), ("Food", [10, 20, 30, 40, 50, 60])]).map Prod.fst
    ∧ 5 ≤ ([10, 20, 30, 40, 50, 60] : List ℚ).length
    ∧ ("Food", (35 : ℚ)) ∈ calculate_population_averages
        [("Travel", [1, 2, 3, 4]), ("Food", [10, 20, 30, 40, 50, 60])] := by
  refine ⟨by simp, by simp, by norm_num, ?_, by norm_num, ?_⟩
  · exact (calculate_population_averages_spec
      [("Travel", [1, 2, 3, 4]), ("Food", [10, 20, 30, 40, 50, 60])]
      "Travel" [1, 2, 3, 4] (by simp) (by simp)).1 (by norm_num)
  · have h := (calculate_population_averages_spec
      [("Travel", [1, 2, 3, 4]), ("Food", [10, 20, 30, 40, 50, 60])]
      "Food" [10, 20, 30, 40, 50, 60] (by simp) (by simp)).2 (by norm_num)
    have hval : pyRound (mean (remove_outliers
        ([10, 20, 30, 40, 50, 60] : List ℚ))) 2 = 35 := by
      norm_num [remove_outliers, lowerBound, upperBound, iqr, q1, q3, sortedData,
        List.insertionSort, List.orderedInsert, List.filter, mean, pyRound, pyRoundInt]
    rw [hval] at h
    exact h

/-! ## User-to-population comparison (claims C8, C9) -/

/-- C8 (counterexample): a category that is present in the population
aggregate with value 0 is nevertheless skipped by the comparison: with
user = {"Food": 200} and population = {"Food": 0} the result is empty, even
though "Food" is not absent from the population aggregate. -/
theorem compare_zero_baseline_skipped :
    "Food" ∈ (([("Food", (0 : ℚ))]).map Prod.fst)
    ∧ compare_user_to_population [("Food", 200)] [("Food", 0)] = [] := by
  constructor
  · simp
  · rw [compare_user_to_population]
    norm_num [lookupD, List.lookup]

/-- C8 (amended): the comparison iterates the union of the categories of
both inputs; it skips exactly the categories whose population amount (with
default 0 for an absent category) is 0, so an absent category is not
treated as a zero baseline and a zero-valued category is skipped too; each
remaining category maps to (pct_diff, dollar_diff) with
dollar_diff = round(user - population, 2) and
pct_diff = round(dollar_diff / population * 100, 1); in particular
user {"Food": 200} and population {"Food": 100} give
{"Food": (100.0, 100.0)}. -/
theorem compare_user_to_population_spec :
    (∀ (user_spending population_avg : List (String × ℚ)) (cat : String)
        (pct dollar : ℚ),
      (cat, pct, dollar) ∈ compare_user_to_population user_spending population_avg
        ↔ ((cat ∈ user_spending.map Prod.fst ∨ cat ∈ population_avg.map Prod.fst)
            ∧ lookupD population_avg cat 0 ≠ 0
            ∧ dollar = pyRound (lookupD user_spending cat 0
                - lookupD population_avg cat 0) 2
            ∧ pct = pyRound (dollar / lookupD population_avg cat 0 * 100) 1))
    ∧ compare_user_to_population [("Food", 200)] [("Food", 100)]
        = [("Food", 100, 100)] := by
  constructor
  · intro user_spending population_avg cat pct dollar
    rw [compare_user_to_population]
    constructor
    · intro hmem
      rcases List.mem_filterMap.mp hmem with ⟨c, hc, hf⟩
      by_cases h0 : lookupD population_avg c 0 = 0
      · rw [if_pos h0] at hf
        exact absurd hf (by simp)
      · simp only [if_neg h0, Option.some.injEq, Prod.mk.injEq] at hf
        obtain ⟨hc1, hc2, hc3⟩ := hf
        rw [← hc1]
        rw [List.mem_dedup, List.mem_append] at hc
        rw [← hc2, ← hc3]
        exact ⟨hc, h0, rfl, rfl⟩
    · rintro ⟨hcat, h0, hd, hp⟩
      refine List.mem_filterMap.mpr ⟨cat, ?_, ?_⟩
      · rw [List.mem_dedup, List.mem_append]
        exact hcat
      · rw [if_neg h0, hd, hp, hd]
  · rw [compare_user_to_population]
    simp only [List.map_cons, List.map_nil, List.cons_append, List.nil_append]
    rw [show (["Food", "Food"]).dedup = ["Food"] from by simp]
    simp only [List.filterMap_cons, List.filterMap_nil]
    have h0 : lookupD [("Food", (100 : ℚ))] "Food" 0 = 100 := by
      norm_num [lookupD, List.lookup]
    have hu : lookupD [("Food", (200 : ℚ))] "Food" 0 = 200 := by
      norm_num [lookupD, List.lookup]
    rw [h0, hu]
    have hd : pyRound ((200 : ℚ) - 100) 2 = 100 := by
      norm_num [pyRound, pyRoundInt]
    rw [if_neg (by norm_num : ¬ (100 : ℚ) = 0), hd]
    have hp : pyRound ((100 : ℚ) / 100 * 100) 1 = 100 := by
      norm_num [pyRound, pyRoundInt]
    rw [hp]

/-- Witness for C8 (amended): the spec example entry is in the comparison. -/
theorem compare_user_to_population_spec_witness :
    ("Food", (100 : ℚ), (100 : ℚ))
      ∈ compare_user_to_population [("Food", 200)] [("Food", 100)] := by
  refine (compare_user_to_population_spec.1
    [("Food", 200)] [("Food", 100)] "Food" 100 100).mpr ?_
  refine ⟨by simp, by norm_num [lookupD, List.lookup], ?_, ?_⟩
  · norm_num [lookupD, List.lookup, pyRound, pyRoundInt]
  · norm_num [lookupD, List.lookup, pyRound, pyRoundInt]

instance : IsTotal (String × ℚ × ℚ) pctDesc :=
  ⟨fun a b => le_total b.2.1 a.2.1⟩

instance : IsTrans (String × ℚ × ℚ) pctDesc :=
  ⟨fun _ _ _ h1 h2 => le_trans h2 h1⟩

/-- C9: the top-overspending selection keeps exactly the entries with
positive percentage difference, sorted in descending order of the
percentage difference, truncated to the first `limit` entries; on entries
at +50, -20 and +10 with limit 2 it returns the +50 entry then the +10
entry. -/
theorem get_top_overspending_categories_spec :
    (∀ (comparison : List (String × ℚ × ℚ)) (limit : ℕ),
      get_top_overspending_categories comparison limit
          = ((comparison.filter (fun x => decide (0 < x.2.1))).insertionSort
              pctDesc).take limit
        ∧ (get_top_overspending_categories comparison limit).Pairwise pctDesc
        ∧ (get_top_overspending_categories comparison limit).length
            = min limit (comparison.filter (fun x => decide (0 < x.2.1))).length)
    ∧ get_top_overspending_categories
        [("A", 50, 10), ("B", -20, -5), ("C", 10, 2)] 2
        = [("A", 50, 10), ("C", 10, 2)] := by
  constructor
  · intro comparison limit
    refine ⟨rfl, ?_, ?_⟩
    · rw [get_top_overspending_categories]
      exact ((List.sorted_insertionSort pctDesc _).sublist
        (List.take_sublist _ _))
    · rw [get_top_overspending_categories]
      rw [List.length_take, List.length_insertionSort]
  · rw [get_top_overspending_categories]
    norm_num [List.filter, List.insertionSort, List.orderedInsert, pctDesc]
